import Mathlib

/-!
Shallow embedding of the Goodix cfg-bin decoder (`src/main.rs`,
`GoodixCfgBin::parse`) and proofs about it.

Modelling conventions:
* A byte buffer is a `List Nat`; reading a byte applies `% 256` because the
  source reads `u8` values.
* Machine arithmetic is `Nat` with explicit reductions: `u8` wraps `% 256`,
  `u32` wraps `% 2 ^ 32` (the source is built with overflow checks off, as
  its `#![allow(arithmetic_overflow)]` attribute indicates, so `u8 << 8`
  masks the shift count to `8 % 8 = 0` and additions/subtractions wrap).
* The source performs unchecked reads: slice indexing out of range panics,
  and `copy_nonoverlapping` with an out-of-range source or an over-long
  destination count is an out-of-bounds access.  Both are modelled by the
  distinguished outcome `crash` (no `Error` value is returned in either
  case, which is what the safety claims are about).
* `HashMap<u8, GoodixIcConfig>` is modelled as an association list with
  overwrite-on-insert (`insertCfg`) and first-match lookup (`lookupCfg`).
* The `cfg: *const u8` pointer stored in `GoodixCfgPackage` points at the
  package's payload inside the input; it is modelled as the payload bytes
  themselves.
-/

namespace Goodix

/-- `TS_BIN_VERSION_START_INDEX` from the source. -/
def TS_BIN_VERSION_START_INDEX : Nat := 5

/-- `TS_BIN_VERSION_LEN` from the source. -/
def TS_BIN_VERSION_LEN : Nat := 4

/-- `TS_CFG_BIN_HEAD_RESERVED_LEN` from the source. -/
def TS_CFG_BIN_HEAD_RESERVED_LEN : Nat := 6

/-- `TS_CFG_OFFSET_LEN` from the source. -/
def TS_CFG_OFFSET_LEN : Nat := 2

/-- `TS_IC_TYPE_NAME_MAX_LEN` from the source. -/
def TS_IC_TYPE_NAME_MAX_LEN : Nat := 15

/-- `size_of::<GoodixCfgBinHead>()`: the struct is `repr(C, packed(1))`,
so 4 (`bin_len`) + 1 (`checksum`) + 4 (`bin_version`) + 1 (`pkg_num`). -/
def sizeOfGoodixCfgBinHead : Nat := 10

/-- `TS_CFG_BIN_HEAD_LEN = size_of::<GoodixCfgBinHead>() + 6 = 16`. -/
def TS_CFG_BIN_HEAD_LEN : Nat := sizeOfGoodixCfgBinHead + TS_CFG_BIN_HEAD_RESERVED_LEN

/-- `size_of::<GoodixCfgPkgConstInfo>()`: packed, so
4 + 15 + 1 + 1 + 8 + 8 + 9 + 4 + 2 + 2 + 2 = 56. -/
def TS_PKG_CONST_INFO_LEN : Nat := 56

/-- `size_of::<GoodixCfgPkgRegInfo>()`: packed, 14 registers of 4 bytes
plus 9 reserved bytes = 65. -/
def TS_PKG_REG_INFO_LEN : Nat := 65

/-- `TS_PKG_HEAD_LEN = 56 + 65 = 121`. -/
def TS_PKG_HEAD_LEN : Nat := TS_PKG_CONST_INFO_LEN + TS_PKG_REG_INFO_LEN

/-- `TS_CFG_BLOCK_RESERVED_LEN` from the source. -/
def TS_CFG_BLOCK_RESERVED_LEN : Nat := 9

/-- `GOODIX_CFG_MAX_SIZE` from the source. -/
def GOODIX_CFG_MAX_SIZE : Nat := 4096

/-- `GoodixCfgPkgReg`: one 4-byte register record. -/
structure GoodixCfgPkgReg where
  addr : Nat
  reserved1 : Nat
  reserved2 : Nat
deriving DecidableEq, Inhabited

/-- `GoodixCfgPkgConstInfo`, fields in declared (packed) order. -/
structure GoodixCfgPkgConstInfo where
  pkg_len : Nat
  ic_type : List Nat
  cfg_type : Nat
  sensor_id : Nat
  hw_pid : List Nat
  hw_vid : List Nat
  fw_mask : List Nat
  fw_patch : List Nat
  x_res_offset : Nat
  y_res_offset : Nat
  trigger_offset : Nat
deriving DecidableEq, Inhabited

/-- `GoodixCfgPkgRegInfo`, fields in declared (packed) order. -/
structure GoodixCfgPkgRegInfo where
  cfg_send_flag : GoodixCfgPkgReg
  version_base : GoodixCfgPkgReg
  pid : GoodixCfgPkgReg
  vid : GoodixCfgPkgReg
  sensor_id : GoodixCfgPkgReg
  fw_mask : GoodixCfgPkgReg
  fw_status : GoodixCfgPkgReg
  cfg_addr : GoodixCfgPkgReg
  esd : GoodixCfgPkgReg
  command : GoodixCfgPkgReg
  coor : GoodixCfgPkgReg
  gesture : GoodixCfgPkgReg
  fw_request : GoodixCfgPkgReg
  proximity : GoodixCfgPkgReg
  reserved : List Nat
deriving DecidableEq, Inhabited

/-- `GoodixCfgBinHead`, fields in declared (packed) order. -/
structure GoodixCfgBinHead where
  bin_len : Nat
  checksum : Nat
  bin_version : List Nat
  pkg_num : Nat
deriving DecidableEq, Inhabited

/-- `GoodixCfgPackage`.  The source stores a raw pointer `cfg: *const u8`
into the input buffer at the start of the payload; it is modelled by the
payload bytes it points at (the `cfg_len` bytes copied into the config). -/
structure GoodixCfgPackage where
  cnst_info : GoodixCfgPkgConstInfo
  reg_info : GoodixCfgPkgRegInfo
  cfg : List Nat
  pkg_len : Nat
deriving DecidableEq, Inhabited

/-- `GoodixIcConfig`: `len` is an `i32` in the source, so it is an `Int`. -/
structure GoodixIcConfig where
  len : Int
  data : List Nat
deriving DecidableEq, Inhabited

/-- `GoodixCfgBin`. -/
structure GoodixCfgBin where
  head : GoodixCfgBinHead
  cfg_pkgs : List GoodixCfgPackage
  ic_configs : List (Nat × GoodixIcConfig)
deriving DecidableEq, Inhabited

/-- The `Error` enum of the source. -/
inductive GoodixError where
  | invalidSize
  | lengthCheckFail
  | checksumMismatch
  | invalidOffset
deriving DecidableEq, Inhabited

/-- Result of decoding one package (one iteration of the source's loop).
`crash` is an out-of-bounds slice index (a Rust panic) or an out-of-range
`copy_nonoverlapping` (an out-of-bounds access): in neither case does the
source return an `Error`. -/
inductive PkgResult where
  | ok (pkg : GoodixCfgPackage)
  | err (e : GoodixError)
  | crash
deriving DecidableEq, Inhabited

/-- Result of the whole package loop. -/
inductive LoopResult where
  | done (pkgs : List GoodixCfgPackage) (cfgs : List (Nat × GoodixIcConfig))
  | err (e : GoodixError)
  | crash
deriving DecidableEq, Inhabited

/-- Result of `GoodixCfgBin::parse`. -/
inductive ParseOutcome where
  | ok (bin : GoodixCfgBin)
  | err (e : GoodixError)
  | crash
deriving DecidableEq, Inhabited

/-- The `u8` at index `i` of the buffer (reads of `input[i]` are `u8`,
hence the `% 256`; all uses are behind an explicit bounds check). -/
def byteAt (input : List Nat) (i : Nat) : Nat :=
  input.getD i 0 % 256

/-- The `n` bytes starting at index `o` (a `copy_nonoverlapping` source
range; all uses are behind an explicit bounds check). -/
def bytesAt (input : List Nat) (o n : Nat) : List Nat :=
  ((input.drop o).take n).map (fun b => b % 256)

/-- A little-endian `u16` field of a packed struct copied from `input`. -/
def le16 (input : List Nat) (i : Nat) : Nat :=
  byteAt input i + 256 * byteAt input (i + 1)

/-- A little-endian `u32` field of a packed struct copied from `input`. -/
def le32 (input : List Nat) (i : Nat) : Nat :=
  byteAt input i + 256 * byteAt input (i + 1) +
    65536 * byteAt input (i + 2) + 16777216 * byteAt input (i + 3)

/-- The offset-table read exactly as the source performs it:
`input[base] + (input[base + 1] << 8)` at type `u8`.  With overflow checks
off, the `u8` shift masks its count to `8 % 8 = 0` and the `u8` addition
wraps mod 256, so the high byte is folded into the low byte. -/
def readOffset (input : List Nat) (base : Nat) : Nat :=
  (byteAt input base + byteAt input (base + 1) * 2 ^ (8 % 8)) % 256

/-- Modelled from the spec: the offset read the spec prescribes,
`low_byte | (high_byte << 8)` at 16-bit width, i.e.
`low_byte + 256 * high_byte`. -/
def readOffsetSpec (input : List Nat) (base : Nat) : Nat :=
  byteAt input base + 256 * byteAt input (base + 1)

/-- The header as filled in by the `copy_nonoverlapping` of
`size_of::<GoodixCfgBinHead>()` bytes into the packed struct
(little-endian target): `bin_len` from bytes 0..4, `checksum` from byte 4,
`bin_version` from bytes 5..9, `pkg_num` from byte 9. -/
def mkHead (input : List Nat) : GoodixCfgBinHead :=
  { bin_len := le32 input 0
    checksum := byteAt input 4
    bin_version := bytesAt input 5 TS_BIN_VERSION_LEN
    pkg_num := byteAt input 9 }

/-- One `GoodixCfgPkgReg` at byte offset `o`. -/
def mkReg (input : List Nat) (o : Nat) : GoodixCfgPkgReg :=
  { addr := le16 input o
    reserved1 := byteAt input (o + 2)
    reserved2 := byteAt input (o + 3) }

/-- `GoodixCfgPkgConstInfo` copied from the 56 bytes at offset `o`. -/
def mkConstInfo (input : List Nat) (o : Nat) : GoodixCfgPkgConstInfo :=
  { pkg_len := le32 input o
    ic_type := bytesAt input (o + 4) TS_IC_TYPE_NAME_MAX_LEN
    cfg_type := byteAt input (o + 19)
    sensor_id := byteAt input (o + 20)
    hw_pid := bytesAt input (o + 21) 8
    hw_vid := bytesAt input (o + 29) 8
    fw_mask := bytesAt input (o + 37) 9
    fw_patch := bytesAt input (o + 46) 4
    x_res_offset := le16 input (o + 50)
    y_res_offset := le16 input (o + 52)
    trigger_offset := le16 input (o + 54) }

/-- `GoodixCfgPkgRegInfo` copied from the 65 bytes at offset `o`. -/
def mkRegInfo (input : List Nat) (o : Nat) : GoodixCfgPkgRegInfo :=
  { cfg_send_flag := mkReg input o
    version_base := mkReg input (o + 4)
    pid := mkReg input (o + 8)
    vid := mkReg input (o + 12)
    sensor_id := mkReg input (o + 16)
    fw_mask := mkReg input (o + 20)
    fw_status := mkReg input (o + 24)
    cfg_addr := mkReg input (o + 28)
    esd := mkReg input (o + 32)
    command := mkReg input (o + 36)
    coor := mkReg input (o + 40)
    gesture := mkReg input (o + 44)
    fw_request := mkReg input (o + 48)
    proximity := mkReg input (o + 52)
    reserved := bytesAt input (o + 56) TS_CFG_BLOCK_RESERVED_LEN }

/-- The `GoodixIcConfig` built from a payload: `cfg_len` bytes copied into
a zeroed 4096-byte array, `len` set to `cfg_len as i32`. -/
def mkIcConfig (cfg : List Nat) : GoodixIcConfig :=
  { len := (cfg.length : Int)
    data := cfg ++ List.replicate (GOODIX_CFG_MAX_SIZE - cfg.length) 0 }

/-- The checksum loop of the source: `checksum += input[i]` (a wrapping
`u8` sum) for `i` in `TS_BIN_VERSION_START_INDEX .. input.len()`. -/
def checksumFrom (input : List Nat) : Nat :=
  (input.drop TS_BIN_VERSION_START_INDEX).foldl (fun a b => (a + b % 256) % 256) 0

/-- `HashMap::insert`: overwrites any existing binding of `k`. -/
def insertCfg (m : List (Nat × GoodixIcConfig)) (k : Nat) (v : GoodixIcConfig) :
    List (Nat × GoodixIcConfig) :=
  (k, v) :: m.filter (fun p => p.1 ≠ k)

/-- `HashMap` lookup. -/
def lookupCfg (m : List (Nat × GoodixIcConfig)) (k : Nat) : Option GoodixIcConfig :=
  (m.find? (fun p => p.1 == k)).map (fun p => p.2)

/-- Byte index of offset-table slot `i`:
`TS_CFG_BIN_HEAD_LEN + i * TS_CFG_OFFSET_LEN`. -/
def tableBase (i : Nat) : Nat := TS_CFG_BIN_HEAD_LEN + i * TS_CFG_OFFSET_LEN

/-- The second half of one loop iteration, after `pkg_len` is fixed: the
two struct copies, the payload pointer, and the payload copy.  In source
order: `copy_nonoverlapping` of 56 bytes at `offset1` (out of bounds if it
runs past the buffer), of 65 bytes at `offset1 + 56`, the index
`&input[offset1 + TS_PKG_HEAD_LEN]` (panics unless strictly in bounds),
the `usize` computation `pkg_len - 56 - 65` (underflows when
`pkg_len < 121`: a panic with overflow checks on, a wild-length copy with
them off — a crash either way), and the payload `copy_nonoverlapping` of
`cfg_len` bytes (out of bounds on the source side if it runs past the
buffer, and on the destination side if `cfg_len > GOODIX_CFG_MAX_SIZE`). -/
def mkPkg (input : List Nat) (pkg_len offset1 : Nat) : PkgResult :=
  if input.length < offset1 + TS_PKG_CONST_INFO_LEN then .crash
  else if input.length < offset1 + TS_PKG_HEAD_LEN then .crash
  else if input.length ≤ offset1 + TS_PKG_HEAD_LEN then .crash
  else if pkg_len < TS_PKG_HEAD_LEN then .crash
  else if input.length < offset1 + pkg_len then .crash
  else if GOODIX_CFG_MAX_SIZE < pkg_len - TS_PKG_HEAD_LEN then .crash
  else
    .ok
      { cnst_info := mkConstInfo input offset1
        reg_info := mkRegInfo input (offset1 + TS_PKG_CONST_INFO_LEN)
        cfg := bytesAt input (offset1 + TS_PKG_HEAD_LEN) (pkg_len - TS_PKG_HEAD_LEN)
        pkg_len := pkg_len }

/-- One iteration of the source's package loop, for index `i`.  Reads
`offset1` from table slot `i` (panics if the slot is out of bounds); for
the last package `pkg_len` is the wrapping `u32` difference
`input.len() as u32 - offset1 as u32`, otherwise `offset2` is read from
the next slot and `offset2 <= offset1` is `Error::InvalidOffset`, else
`pkg_len = offset2 - offset1`. -/
def parsePkg (input : List Nat) (pkgNum i : Nat) : PkgResult :=
  if input.length ≤ tableBase i + 1 then .crash
  else if i = pkgNum - 1 then
    mkPkg input ((input.length % 2 ^ 32 + (2 ^ 32 - readOffset input (tableBase i))) % 2 ^ 32)
      (readOffset input (tableBase i))
  else if input.length ≤ tableBase i + 3 then .crash
  else if readOffset input (tableBase i + 2) ≤ readOffset input (tableBase i) then
    .err .invalidOffset
  else
    mkPkg input (readOffset input (tableBase i + 2) - readOffset input (tableBase i))
      (readOffset input (tableBase i))

/-- The package loop: for each index, decode the package, push it onto the
package vector and insert its config into the registry under
`cnst_info.cfg_type`. -/
def runPkgs (input : List Nat) (pkgNum : Nat) :
    List Nat → List GoodixCfgPackage → List (Nat × GoodixIcConfig) → LoopResult
  | [], pkgs, cfgs => .done pkgs cfgs
  | i :: rest, pkgs, cfgs =>
    match parsePkg input pkgNum i with
    | .ok pkg =>
      runPkgs input pkgNum rest (pkgs ++ [pkg])
        (insertCfg cfgs pkg.cnst_info.cfg_type (mkIcConfig pkg.cfg))
    | .err e => .err e
    | .crash => .crash

/-- `GoodixCfgBin::parse`. -/
def parse (input : List Nat) : ParseOutcome :=
  if input.length < sizeOfGoodixCfgBinHead then .err .invalidSize
  else if input.length % 2 ^ 32 ≠ (mkHead input).bin_len then .err .lengthCheckFail
  else if checksumFrom input ≠ (mkHead input).checksum then .err .checksumMismatch
  else
    match runPkgs input (mkHead input).pkg_num (List.range (mkHead input).pkg_num) [] [] with
    | .done pkgs cfgs => .ok { head := mkHead input, cfg_pkgs := pkgs, ic_configs := cfgs }
    | .err e => .err e
    | .crash => .crash

/-! ### Concrete buffers used by the witnesses and counterexamples -/

/-- A buffer whose offset-table slot 0 (bytes 16, 17) holds the
little-endian 16-bit value 256: low byte 0, high byte 1. -/
def c1ex : List Nat := List.replicate 16 0 ++ [0, 1]

/-- A 20-byte buffer with a correct length field and checksum, one
package, and offset-table entry 18, so the package's 56-byte `ConstInfo`
copy runs past the end of the buffer. -/
def c2ex : List Nat :=
  [20, 0, 0, 0, 19, 0, 0, 0, 0, 1, 0, 0, 0, 0, 0, 0, 18, 0, 0, 0]

/-- A 200-byte buffer with a correct length field and checksum and two
packages at offsets 20 and 30, so package 0 spans 10 bytes: fewer than
the 121 bytes of `ConstInfo` plus `RegInfo`, making the payload length
negative. -/
def c3ex : List Nat :=
  [200, 0, 0, 0, 52, 0, 0, 0, 0, 2, 0, 0, 0, 0, 0, 0, 20, 0, 30, 0] ++
    List.replicate 180 0

/-- A 10-byte buffer with a correct length field whose declared checksum
(5) differs from the wrapping sum of bytes 5.. (0). -/
def c4ex : List Nat := [10, 0, 0, 0, 5, 0, 0, 0, 0, 0]

/-- A buffer of length `2 ^ 32 + 10` whose `bin_len` field declares 10:
the declared length differs from the actual length but agrees with it
modulo `2 ^ 32`, the checksum is consistent and `pkg_num` is 0. -/
def c5big : List Nat :=
  [10, 0, 0, 0, 0, 0, 0, 0, 0, 0] ++ List.replicate (2 ^ 32) 0

/-- A 10-byte buffer whose `bin_len` field declares 9. -/
def c5ex : List Nat := [9, 0, 0, 0, 0, 0, 0, 0, 0, 0]

/-- A 20-byte buffer whose offset table holds 20 followed by 15: the
second offset is not greater than the first. -/
def c6ex : List Nat := List.replicate 16 0 ++ [20, 0, 15, 0]

/-- A buffer of length `2 ^ 32 + 300` whose offset-table slot 0 (bytes 16,
17) holds offset 20: the last package's `u32`-truncated length computation
wraps. -/
def c6big : List Nat :=
  [0, 0, 0, 0, 0, 0, 0, 0, 0, 0, 0, 0, 0, 0, 0, 0, 20, 0] ++
    List.replicate (2 ^ 32 + 282) 0

/-- A 264-byte buffer that decodes successfully into two packages, both
with `cfg_type` 3, at offsets 20 and 142, with one payload byte each
(170 for package 0, 187 for package 1). -/
def c7ex : List Nat :=
  [8, 1, 0, 0, 15, 0, 0, 0, 0, 2, 0, 0, 0, 0, 0, 0, 20, 0, 142, 0] ++
    (List.replicate 19 0 ++ [3]) ++
    (List.replicate 101 0 ++ [170]) ++
    (List.replicate 19 0 ++ [3]) ++
    (List.replicate 101 0 ++ [187])

/-- A 10-byte buffer with distinct values in every header byte. -/
def c8ex : List Nat := [1, 2, 3, 4, 5, 6, 7, 8, 9, 10]

/-- A valid 10-byte buffer: correct length field, correct checksum,
`pkg_num` 0. -/
def c9ex : List Nat := [10, 0, 0, 0, 0, 0, 0, 0, 0, 0]

/-- The registry built by inserting each package's config in order, as the
loop does. -/
def registryOf (pkgs : List GoodixCfgPackage) (init : List (Nat × GoodixIcConfig)) :
    List (Nat × GoodixIcConfig) :=
  pkgs.foldl (fun m p => insertCfg m p.cnst_info.cfg_type (mkIcConfig p.cfg)) init

/-- Whether a parse outcome is a successful decode. -/
def isOkOutcome : ParseOutcome → Bool
  | .ok _ => true
  | _ => false

/-- The decoded record of a successful parse outcome. -/
def okValue : ParseOutcome → GoodixCfgBin
  | .ok r => r
  | _ => default

/-- Whether a package decode succeeded. -/
def isOkPkg : PkgResult → Bool
  | .ok _ => true
  | _ => false

/-- The package of a successful package decode. -/
def okPkg : PkgResult → GoodixCfgPackage
  | .ok p => p
  | _ => default

/-- The record `parse c7ex` decodes to. -/
def c7res : GoodixCfgBin := okValue (parse c7ex)

/-! ### Helper lemmas -/

/-- The wrapping-`u8` checksum loop computes the mod-256 sum of the bytes
from index 5 on. -/
theorem checksumFrom_eq_sum (input : List Nat) :
    checksumFrom input = (input.drop TS_BIN_VERSION_START_INDEX).sum % 256 := by
  unfold checksumFrom
  generalize input.drop TS_BIN_VERSION_START_INDEX = l
  suffices h : ∀ (l : List Nat) (a : Nat), a < 256 →
      l.foldl (fun a b => (a + b % 256) % 256) a = (a + l.sum) % 256 by
    simpa using h l 0 (by omega)
  intro l
  induction l with
  | nil => intro a ha; simp [Nat.mod_eq_of_lt ha]
  | cons b t ih =>
    intro a ha
    rw [List.foldl_cons, ih _ (Nat.mod_lt _ (by omega)), List.sum_cons]
    omega

/-- The checksum loop over an all-zero tail stays zero. -/
theorem foldl_checksum_replicate_zero (n : Nat) :
    (List.replicate n 0).foldl (fun a b => (a + b % 256) % 256) 0 = 0 := by
  induction n with
  | zero => rfl
  | succ m ih => rw [List.replicate_succ, List.foldl_cons]; exact ih

/-- The package-body step never produces an `Error` value: it either
succeeds or crashes. -/
theorem mkPkg_ne_err (input : List Nat) (L o : Nat) (e : GoodixError) :
    mkPkg input L o ≠ .err e := by
  unfold mkPkg
  split_ifs <;> simp

/-- A successful package-body step keeps the `pkg_len` it was given, and
its package header lies strictly inside the buffer. -/
theorem mkPkg_ok (input : List Nat) (L o : Nat) (pkg : GoodixCfgPackage)
    (h : mkPkg input L o = .ok pkg) :
    pkg.pkg_len = L ∧ o + TS_PKG_HEAD_LEN < input.length := by
  unfold mkPkg at h
  split at h
  · exact absurd h (by simp)
  split at h
  · exact absurd h (by simp)
  split at h
  · exact absurd h (by simp)
  split at h
  · exact absurd h (by simp)
  split at h
  · exact absurd h (by simp)
  split at h
  · exact absurd h (by simp)
  rename_i h1 h2 h3 h4 h5 h6
  injection h with h
  subst h
  exact ⟨rfl, by omega⟩

/-- The only `Error` a loop iteration can produce is `InvalidOffset`. -/
theorem parsePkg_err_invalidOffset (input : List Nat) (pkgNum i : Nat) (e : GoodixError)
    (h : parsePkg input pkgNum i = .err e) : e = .invalidOffset := by
  unfold parsePkg at h
  split at h
  · exact absurd h (by simp)
  split at h
  · exact absurd h (mkPkg_ne_err _ _ _ _)
  split at h
  · exact absurd h (by simp)
  split at h
  · injection h with h; exact h.symm
  · exact absurd h (mkPkg_ne_err _ _ _ _)

/-- Filtering out key `k` does not change `find?` for a different key. -/
theorem find?_filter_ne (m : List (Nat × GoodixIcConfig)) (k t : Nat) (hne : t ≠ k) :
    (m.filter (fun p => p.1 ≠ k)).find? (fun p => p.1 == t) =
      m.find? (fun p => p.1 == t) := by
  induction m with
  | nil => rfl
  | cons a rest ih =>
    by_cases hak : a.1 = k
    · rw [List.filter_cons_of_neg (by simp [hak])]
      rw [ih, List.find?_cons_of_neg _ (by simp [hak, Ne.symm hne])]
    · rw [List.filter_cons_of_pos (by simp [hak])]
      by_cases hat : a.1 = t
      · rw [List.find?_cons_of_pos _ (by simp [hat]), List.find?_cons_of_pos _ (by simp [hat])]
      · rw [List.find?_cons_of_neg _ (by simp [hat]), List.find?_cons_of_neg _ (by simp [hat]),
          ih]

/-- Lookup after an overwriting insert. -/
theorem lookupCfg_insertCfg (m : List (Nat × GoodixIcConfig)) (k : Nat) (v : GoodixIcConfig)
    (t : Nat) :
    lookupCfg (insertCfg m k v) t = if t = k then some v else lookupCfg m t := by
  unfold lookupCfg insertCfg
  by_cases htk : t = k
  · rw [if_pos htk, List.find?_cons_of_pos _ (by simp [htk])]
    rfl
  · rw [if_neg htk, List.find?_cons_of_neg _ (by simp [Ne.symm htk]), find?_filter_ne _ _ _ htk]

/-- Looking up the registry of a package list finds the config of the
last package with the given `cfg_type`, falling back to the initial
registry. -/
theorem lookupCfg_registryOf (pkgs : List GoodixCfgPackage)
    (init : List (Nat × GoodixIcConfig)) (t : Nat) :
    lookupCfg (registryOf pkgs init) t =
      ((pkgs.reverse.find? (fun p => p.cnst_info.cfg_type == t)).map
        (fun p => mkIcConfig p.cfg)).or (lookupCfg init t) := by
  induction pkgs generalizing init with
  | nil => simp [registryOf, lookupCfg]
  | cons p ps ih =>
    have h1 : registryOf (p :: ps) init =
        registryOf ps (insertCfg init p.cnst_info.cfg_type (mkIcConfig p.cfg)) := rfl
    rw [h1, ih, List.reverse_cons, List.find?_append]
    cases hf : ps.reverse.find? (fun q => q.cnst_info.cfg_type == t) with
    | some q => simp
    | none =>
      simp only [Option.none_or, Option.map_none]
      rw [lookupCfg_insertCfg]
      by_cases hpt : p.cnst_info.cfg_type = t
      · rw [List.find?_cons_of_pos _ (by simp [hpt]), if_pos hpt.symm]
        simp
      · rw [List.find?_cons_of_neg _ (by simp [hpt]), if_neg (Ne.symm hpt)]
        simp

/-- The only `Error` the package loop can produce is `InvalidOffset`. -/
theorem runPkgs_err_invalidOffset (input : List Nat) (n : Nat) (is : List Nat) :
    ∀ (pkgs0 : List GoodixCfgPackage) (cfgs0 : List (Nat × GoodixIcConfig)) (e : GoodixError),
      runPkgs input n is pkgs0 cfgs0 = .err e → e = .invalidOffset := by
  induction is with
  | nil =>
    intro pkgs0 cfgs0 e h
    exact absurd h (by simp [runPkgs])
  | cons i rest ih =>
    intro pkgs0 cfgs0 e h
    rw [runPkgs] at h
    cases hp : parsePkg input n i with
    | ok pkg => rw [hp] at h; exact ih _ _ _ h
    | err e2 =>
      rw [hp] at h
      injection h with h
      subst h
      exact parsePkg_err_invalidOffset input n i _ hp
    | crash => rw [hp] at h; exact absurd h (by simp)

/-- Structure of a completed package loop: it appends one successfully
decoded package per index, in order, and builds the registry by feeding
those packages to `insertCfg` in the same order. -/
theorem runPkgs_done (input : List Nat) (n : Nat) (is : List Nat) :
    ∀ (pkgs0 : List GoodixCfgPackage) (cfgs0 : List (Nat × GoodixIcConfig))
      (pkgs : List GoodixCfgPackage) (cfgs : List (Nat × GoodixIcConfig)),
      runPkgs input n is pkgs0 cfgs0 = .done pkgs cfgs →
      ∃ new, pkgs = pkgs0 ++ new ∧ cfgs = registryOf new cfgs0 ∧
        new.length = is.length ∧
        (∀ k, k < is.length →
          parsePkg input n (is.getD k 0) = .ok (new.getD k default)) := by
  induction is with
  | nil =>
    intro pkgs0 cfgs0 pkgs cfgs h
    rw [runPkgs] at h
    injection h with h1 h2
    exact ⟨[], by simp [h1.symm], by simp [registryOf, h2.symm], rfl, by intro k hk; simp at hk⟩
  | cons i rest ih =>
    intro pkgs0 cfgs0 pkgs cfgs h
    rw [runPkgs] at h
    cases hp : parsePkg input n i with
    | ok pkg =>
      rw [hp] at h
      obtain ⟨new, hpkgs, hcfgs, hlen, hidx⟩ := ih _ _ _ _ h
      refine ⟨pkg :: new, by simpa using hpkgs, ?_, by simpa using hlen, ?_⟩
      · rw [hcfgs]
        rfl
      · intro k hk
        cases k with
        | zero => simpa using hp
        | succ m =>
          have h2 := hidx m (by simpa using hk)
          simpa using h2
    | err e2 => rw [hp] at h; exact absurd h (by simp)
    | crash => rw [hp] at h; exact absurd h (by simp)

/-- Structure of a successful `parse`: the returned record's header is
the decoded header, the package vector holds one successfully decoded
package per index in ascending index order, and the registry lookup
returns the config of the last package with the looked-up `cfg_type`. -/
theorem parse_ok_structure (input : List Nat) (r : GoodixCfgBin)
    (h : parse input = .ok r) :
    r.head = mkHead input ∧
    r.cfg_pkgs.length = (mkHead input).pkg_num ∧
    (∀ k, k < (mkHead input).pkg_num →
      parsePkg input (mkHead input).pkg_num k = .ok (r.cfg_pkgs.getD k default)) ∧
    (∀ t, lookupCfg r.ic_configs t =
      (r.cfg_pkgs.reverse.find? (fun p => p.cnst_info.cfg_type == t)).map
        (fun p => mkIcConfig p.cfg)) := by
  unfold parse at h
  split at h
  · exact absurd h (by simp)
  split at h
  · exact absurd h (by simp)
  split at h
  · exact absurd h (by simp)
  cases hr : runPkgs input (mkHead input).pkg_num (List.range (mkHead input).pkg_num) [] [] with
  | done pkgs cfgs =>
    rw [hr] at h
    injection h with h
    obtain ⟨new, hnew, hcfgs, hlen, hidx⟩ := runPkgs_done _ _ _ _ _ _ _ hr
    subst h
    simp only [List.nil_append] at hnew
    subst hnew
    refine ⟨rfl, by simpa using hlen, ?_, ?_⟩
    · intro k hk
      have hk2 : k < (List.range (mkHead input).pkg_num).length := by simpa using hk
      have h3 := hidx k hk2
      rwa [List.getD_eq_getElem _ _ hk2, List.getElem_range] at h3
    · intro t
      rw [hcfgs, lookupCfg_registryOf]
      have hnil : lookupCfg [] t = none := rfl
      rw [hnil, Option.or_none]
  | err e => rw [hr] at h; exact absurd h (by simp)
  | crash => rw [hr] at h; exact absurd h (by simp)

/-- `find?` on the reversed list returns the element at the last index
satisfying the predicate. -/
theorem find?_reverse_of_last {α : Type} [Inhabited α] (l : List α) (p : α → Bool) (j : Nat)
    (hj : j < l.length) (hpj : p (l.getD j default) = true)
    (hafter : ∀ k, k < l.length → j < k → p (l.getD k default) = false) :
    l.reverse.find? p = some (l.getD j default) := by
  have hsplit : l.take (j + 1) ++ l.drop (j + 1) = l := List.take_append_drop _ _
  conv_lhs => rw [← hsplit]
  rw [List.reverse_append, List.find?_append]
  have hnone : (l.drop (j + 1)).reverse.find? p = none := by
    rw [List.find?_eq_none]
    intro x hx
    rw [List.mem_reverse] at hx
    obtain ⟨m, hm, rfl⟩ := List.getElem_of_mem hx
    have hlt : j + 1 + m < l.length := by
      have h2 := hm
      simp only [List.length_drop] at h2
      omega
    have h3 := hafter (j + 1 + m) hlt (by omega)
    rw [List.getD_eq_getElem _ _ hlt] at h3
    simp only [List.getElem_drop]
    simp [h3]
  rw [hnone, Option.none_or]
  have htake : l.take (j + 1) = l.take j ++ [l.getD j default] := by
    rw [List.getD_eq_getElem _ _ hj, List.take_succ, List.getElem?_eq_getElem hj]
    rfl
  rw [htake, List.reverse_append]
  simp only [List.reverse_singleton, List.singleton_append]
  rw [List.find?_cons_of_pos _ hpj]

/-- A buffer that passes the header-size, length and checksum checks and
declares zero packages decodes to the empty record. -/
theorem parse_ok_of_pkgZero (input : List Nat)
    (hlen : sizeOfGoodixCfgBinHead ≤ input.length)
    (hbin : input.length % 2 ^ 32 = (mkHead input).bin_len)
    (hsum : checksumFrom input = (mkHead input).checksum)
    (hpkg : (mkHead input).pkg_num = 0) :
    parse input = .ok { head := mkHead input, cfg_pkgs := [], ic_configs := [] } := by
  unfold parse
  rw [if_neg (by omega), if_neg (by omega), if_neg (by simp [hsum]), hpkg]
  simp [runPkgs]

/-- A successful parse outcome equals `ok` of its own record. -/
theorem outcome_eq_ok (o : ParseOutcome) (h : isOkOutcome o = true) :
    o = .ok (okValue o) := by
  cases o <;> simp_all [isOkOutcome, okValue]

/-- A successful package decode equals `ok` of its own package. -/
theorem pkgResult_eq_ok (r : PkgResult) (h : isOkPkg r = true) :
    r = .ok (okPkg r) := by
  cases r <;> simp_all [isOkPkg, okPkg]

/-- `c5big` has length `2 ^ 32 + 10`. -/
theorem c5big_length : c5big.length = 2 ^ 32 + 10 := by
  unfold c5big
  rw [List.length_append, List.length_replicate]
  simp

/-- The checksummed tail of `c5big` is all zeros. -/
theorem c5big_drop5 : c5big.drop 5 = [0, 0, 0, 0, 0] ++ List.replicate (2 ^ 32) 0 := by
  unfold c5big
  rw [List.drop_append_of_le_length (by simp)]
  rfl

/-- The header decoded from `c5big`. -/
theorem c5big_head :
    mkHead c5big =
      { bin_len := 10, checksum := 0, bin_version := [0, 0, 0, 0], pkg_num := 0 } := by
  have hb : ∀ i, i < 10 → c5big.getD i 0 = [10, 0, 0, 0, 0, 0, 0, 0, 0, 0].getD i 0 := by
    intro i hi
    unfold c5big
    exact List.getD_append _ _ _ _ (by simp [hi])
  have hv : bytesAt c5big 5 TS_BIN_VERSION_LEN = [0, 0, 0, 0] := by
    unfold bytesAt TS_BIN_VERSION_LEN
    rw [c5big_drop5]
    rfl
  unfold mkHead le32 byteAt
  rw [hv, hb 0 (by omega), hb 1 (by omega), hb 2 (by omega), hb 3 (by omega),
    hb 4 (by omega), hb 9 (by omega)]
  rfl

/-- The checksum computed over `c5big` is zero. -/
theorem c5big_checksum : checksumFrom c5big = 0 := by
  unfold checksumFrom TS_BIN_VERSION_START_INDEX
  rw [c5big_drop5, List.foldl_append]
  exact foldl_checksum_replicate_zero _

/-- `c5big` decodes successfully (to the empty record). -/
theorem c5big_parse :
    parse c5big = .ok { head := mkHead c5big, cfg_pkgs := [], ic_configs := [] } := by
  apply parse_ok_of_pkgZero
  · rw [c5big_length]; unfold sizeOfGoodixCfgBinHead; omega
  · rw [c5big_length, c5big_head]; decide
  · rw [c5big_checksum, c5big_head]
  · rw [c5big_head]

/-- `c6big` has length `2 ^ 32 + 300`. -/
theorem c6big_length : c6big.length = 2 ^ 32 + 300 := by
  unfold c6big
  rw [List.length_append, List.length_replicate]
  simp

/-- `c6big`'s offset-table slot 0 decodes to offset 20. -/
theorem c6big_offset : readOffset c6big (tableBase 0) = 20 := by
  unfold readOffset byteAt tableBase TS_CFG_BIN_HEAD_LEN sizeOfGoodixCfgBinHead
    TS_CFG_BIN_HEAD_RESERVED_LEN TS_CFG_OFFSET_LEN c6big
  rw [List.getD_append _ _ _ _ (by simp), List.getD_append _ _ _ _ (by simp)]
  rfl

/-- On `c6big` the last (and only) package decodes successfully with
`pkg_len = 280`: the `u32`-truncated difference
`(2 ^ 32 + 300) as u32 - 20`. -/
theorem c6big_parsePkg :
    parsePkg c6big 1 0 =
      .ok { cnst_info := mkConstInfo c6big 20
            reg_info := mkRegInfo c6big (20 + TS_PKG_CONST_INFO_LEN)
            cfg := bytesAt c6big (20 + TS_PKG_HEAD_LEN) (280 - TS_PKG_HEAD_LEN)
            pkg_len := 280 } := by
  have hW : (c6big.length % 2 ^ 32 + (2 ^ 32 - readOffset c6big (tableBase 0))) % 2 ^ 32
      = 280 := by
    rw [c6big_length, c6big_offset]
    omega
  unfold parsePkg
  rw [if_neg (by rw [c6big_length]; decide), if_pos (by decide : (0 : Nat) = 1 - 1), hW,
    c6big_offset]
  unfold mkPkg
  rw [if_neg (by rw [c6big_length]; decide), if_neg (by rw [c6big_length]; decide),
    if_neg (by rw [c6big_length]; decide), if_neg (by decide),
    if_neg (by rw [c6big_length]; decide), if_neg (by decide)]

/-! ### Claim theorems and witnesses -/


/-- C1: the decoder is claimed to read each offset-table entry as a proper
16-bit little-endian value so that the decoded offset equals
`low_byte + 256 * high_byte`.  The source reads it with 8-bit arithmetic:
on the entry with low byte 0 and high byte 1 it decodes 1, not 256. -/
theorem c1_offset_read_not_16bit :
    readOffset c1ex (tableBase 0) = 1 ∧
    readOffsetSpec c1ex (tableBase 0) = 256 ∧
    readOffset c1ex (tableBase 0) ≠ readOffsetSpec c1ex (tableBase 0) := by
  decide

/-- C2: decode is claimed to validate every derived byte range and return
`InvalidSize` on out-of-range offsets.  On `c2ex` (valid header, length
and checksum, but offset 18 in a 20-byte buffer) the source instead
performs an out-of-bounds copy: the model crashes and no `InvalidSize`
error is returned. -/
theorem c2_out_of_bounds_not_invalidSize :
    parse c2ex = .crash ∧ parse c2ex ≠ .err .invalidSize := by
  decide

set_option maxRecDepth 2000 in
/-- C3: decode is claimed to fail with `InvalidSize` when a package's
payload length `length_i - size(ConstInfo) - size(RegInfo)` is negative or
exceeds 4096.  On `c3ex` (package 0 spans 10 bytes, less than the 121-byte
package header) the subtraction underflows and the source crashes instead
of returning `InvalidSize`. -/
theorem c3_negative_payload_not_invalidSize :
    parse c3ex = .crash ∧ parse c3ex ≠ .err .invalidSize := by
  decide

/-- C4: for every input passing the length check, decode fails with
`ChecksumMismatch` iff the mod-256 sum of the bytes from index 5 to the
end differs from the declared checksum byte. -/
theorem c4_checksum_iff (input : List Nat)
    (hlen : sizeOfGoodixCfgBinHead ≤ input.length)
    (hbin : input.length % 2 ^ 32 = (mkHead input).bin_len) :
    parse input = .err .checksumMismatch ↔
      (input.drop TS_BIN_VERSION_START_INDEX).sum % 256 ≠ (mkHead input).checksum := by
  unfold parse
  rw [if_neg (by omega), if_neg (by omega), ← checksumFrom_eq_sum]
  by_cases h : checksumFrom input ≠ (mkHead input).checksum
  · rw [if_pos h]
    simp [h]
  · rw [if_neg h]
    push_neg at h
    constructor
    · intro hcontra
      exfalso
      cases hr : runPkgs input (mkHead input).pkg_num (List.range (mkHead input).pkg_num)
          [] [] with
      | done pkgs cfgs => rw [hr] at hcontra; exact absurd hcontra (by simp)
      | err e =>
        rw [hr] at hcontra
        injection hcontra with h2
        have h3 := runPkgs_err_invalidOffset _ _ _ _ _ _ hr
        simp_all
      | crash => rw [hr] at hcontra; exact absurd hcontra (by simp)
    · intro hne
      exact absurd h hne

/-- Witness for C4 at the concrete buffer `c4ex`. -/
theorem c4_witness : parse c4ex = .err .checksumMismatch :=
  (c4_checksum_iff c4ex (by decide) (by decide)).mpr (by decide)

/-- C5 counterexample: `c5big` is at least as long as the fixed header and
its declared `bin_len` (10) differs from its actual length (2^32 + 10),
yet decode does not fail with `LengthCheckFail`, because the comparison
truncates the actual length to 32 bits. -/
theorem c5_counterexample :
    sizeOfGoodixCfgBinHead ≤ c5big.length ∧
    (mkHead c5big).bin_len ≠ c5big.length ∧
    parse c5big ≠ .err .lengthCheckFail := by
  refine ⟨?_, ?_, ?_⟩
  · rw [c5big_length]; unfold sizeOfGoodixCfgBinHead; omega
  · rw [c5big_length, c5big_head]; decide
  · rw [c5big_parse]; simp

/-- C5 (amended): for every input at least as long as the fixed header
whose declared `bin_len` differs from the actual buffer length truncated
to 32 bits, decode fails with `LengthCheckFail` (and this happens before
the checksum pass). -/
theorem c5_length_check_fail (input : List Nat)
    (hlen : sizeOfGoodixCfgBinHead ≤ input.length)
    (hne : input.length % 2 ^ 32 ≠ (mkHead input).bin_len) :
    parse input = .err .lengthCheckFail := by
  unfold parse
  rw [if_neg (by omega), if_pos hne]

/-- Witness for the amended C5 at the concrete buffer `c5ex`. -/
theorem c5_witness : parse c5ex = .err .lengthCheckFail :=
  c5_length_check_fail c5ex (by decide) (by decide)

/-- C10: the length check compares the actual length truncated to 32 bits
with the declared `bin_len`, so an input whose length differs from
`bin_len` but is congruent to it modulo 2^32 never fails with
`LengthCheckFail`. -/
theorem c10_length_truncation (input : List Nat)
    (hne : input.length ≠ (mkHead input).bin_len)
    (hmod : input.length % 2 ^ 32 = (mkHead input).bin_len) :
    parse input ≠ .err .lengthCheckFail := by
  unfold parse
  split
  · simp
  split
  · rename_i h2
    exact absurd hmod h2
  split
  · simp
  cases hr : runPkgs input (mkHead input).pkg_num (List.range (mkHead input).pkg_num) [] [] with
  | done pkgs cfgs => simp
  | err e =>
    have h4 := runPkgs_err_invalidOffset _ _ _ _ _ _ hr
    subst h4
    simp
  | crash => simp

/-- Witness for C10 at the concrete buffer `c5big`. -/
theorem c10_witness :
    c5big.length ≠ (mkHead c5big).bin_len ∧
    c5big.length % 2 ^ 32 = (mkHead c5big).bin_len ∧
    parse c5big ≠ .err .lengthCheckFail := by
  have h1 : c5big.length ≠ (mkHead c5big).bin_len := by
    rw [c5big_length, c5big_head]; decide
  have h2 : c5big.length % 2 ^ 32 = (mkHead c5big).bin_len := by
    rw [c5big_length, c5big_head]; decide
  exact ⟨h1, h2, c10_length_truncation c5big h1 h2⟩

/-- C6 (amended): for a non-last package index, decode reads the next
table slot and fails with `InvalidOffset` when `offset_{i+1} <= offset_i`;
otherwise a successfully decoded non-last package has length
`offset_{i+1} - offset_i`, and a successfully decoded last package has
length `(buffer_length - offset_i) mod 2 ^ 32` — the buffer length is
truncated to 32 bits by the `u32` subtraction, so for buffers of length
`2 ^ 32` or more this differs from `buffer_length - offset_i` (see
`c6_counterexample`). -/
theorem c6_package_lengths (input : List Nat) (pkgNum i : Nat) :
    (i ≠ pkgNum - 1 → tableBase i + 3 < input.length →
      readOffset input (tableBase i + 2) ≤ readOffset input (tableBase i) →
      parsePkg input pkgNum i = .err .invalidOffset) ∧
    (i ≠ pkgNum - 1 → ∀ pkg, parsePkg input pkgNum i = .ok pkg →
      pkg.pkg_len = readOffset input (tableBase i + 2) - readOffset input (tableBase i)) ∧
    (i = pkgNum - 1 → ∀ pkg, parsePkg input pkgNum i = .ok pkg →
      pkg.pkg_len = (input.length - readOffset input (tableBase i)) % 2 ^ 32) := by
  refine ⟨?_, ?_, ?_⟩
  · intro hni hb h12
    unfold parsePkg
    rw [if_neg (by omega), if_neg hni, if_neg (by omega), if_pos h12]
  · intro hni pkg h
    unfold parsePkg at h
    by_cases h1 : input.length ≤ tableBase i + 1
    · rw [if_pos h1] at h
      exact absurd h (by simp)
    rw [if_neg h1, if_neg hni] at h
    by_cases h3 : input.length ≤ tableBase i + 3
    · rw [if_pos h3] at h
      exact absurd h (by simp)
    rw [if_neg h3] at h
    by_cases h4 : readOffset input (tableBase i + 2) ≤ readOffset input (tableBase i)
    · rw [if_pos h4] at h
      exact absurd h (by simp)
    rw [if_neg h4] at h
    exact (mkPkg_ok _ _ _ _ h).1
  · intro hlast pkg h
    unfold parsePkg at h
    by_cases h1 : input.length ≤ tableBase i + 1
    · rw [if_pos h1] at h
      exact absurd h (by simp)
    rw [if_neg h1, if_pos hlast] at h
    obtain ⟨hp, hb⟩ := mkPkg_ok _ _ _ _ h
    have ho : readOffset input (tableBase i) < 256 := by
      unfold readOffset
      omega
    rw [hp]
    omega

/-- C6 counterexample: on `c6big` (a buffer of length `2 ^ 32 + 300` with
last-package offset 20) the last package decodes successfully with
`pkg_len` 280 — the `u32`-truncated difference — while the claimed
`buffer_length - offset_i` is `2 ^ 32 + 280`. -/
theorem c6_counterexample :
    parsePkg c6big 1 0 = .ok (okPkg (parsePkg c6big 1 0)) ∧
    (okPkg (parsePkg c6big 1 0)).pkg_len = 280 ∧
    c6big.length - readOffset c6big (tableBase 0) = 2 ^ 32 + 280 ∧
    (okPkg (parsePkg c6big 1 0)).pkg_len ≠
      c6big.length - readOffset c6big (tableBase 0) := by
  refine ⟨?_, ?_, ?_, ?_⟩
  · rw [c6big_parsePkg]
    rfl
  · rw [c6big_parsePkg]
    rfl
  · rw [c6big_length, c6big_offset]
    omega
  · rw [c6big_parsePkg, c6big_length, c6big_offset]
    decide

set_option maxRecDepth 2000 in
/-- Witness for the amended C6: on `c6ex` the non-monotone table yields
`InvalidOffset`; on `c7ex` package 0 has length `offset_1 - offset_0` and
the last package has length `(buffer_length - offset_1) mod 2 ^ 32`. -/
theorem c6_witness :
    parsePkg c6ex 2 0 = .err .invalidOffset ∧
    (okPkg (parsePkg c7ex 2 0)).pkg_len =
      readOffset c7ex (tableBase 0 + 2) - readOffset c7ex (tableBase 0) ∧
    (okPkg (parsePkg c7ex 2 1)).pkg_len =
      (c7ex.length - readOffset c7ex (tableBase 1)) % 2 ^ 32 := by
  refine ⟨(c6_package_lengths c6ex 2 0).1 (by decide) (by decide) (by decide),
    (c6_package_lengths c7ex 2 0).2.1 (by decide) _ (pkgResult_eq_ok _ (by decide)),
    (c6_package_lengths c7ex 2 1).2.2 (by decide) _ (pkgResult_eq_ok _ (by decide))⟩

/-- C7: for a successful decode in which packages `i < j` share
`cfg_type = t` and `j` is the highest such index, the registry maps `t`
to package `j`'s config (last-write-wins), while the package sequence
still holds one successfully decoded package per index in ascending
order. -/
theorem c7_last_write_wins (input : List Nat) (r : GoodixCfgBin)
    (hok : parse input = .ok r) (i j t : Nat) (hij : i < j) (hj : j < r.cfg_pkgs.length)
    (hti : (r.cfg_pkgs.getD i default).cnst_info.cfg_type = t)
    (htj : (r.cfg_pkgs.getD j default).cnst_info.cfg_type = t)
    (hlast : ∀ k, k < r.cfg_pkgs.length → j < k →
      (r.cfg_pkgs.getD k default).cnst_info.cfg_type ≠ t) :
    lookupCfg r.ic_configs t = some (mkIcConfig (r.cfg_pkgs.getD j default).cfg) ∧
    r.cfg_pkgs.length = r.head.pkg_num ∧
    (∀ k, k < r.head.pkg_num →
      parsePkg input r.head.pkg_num k = .ok (r.cfg_pkgs.getD k default)) := by
  obtain ⟨hhead, hlen, hidx, hlook⟩ := parse_ok_structure input r hok
  refine ⟨?_, by rw [hhead]; exact hlen, by rw [hhead]; exact hidx⟩
  rw [hlook t]
  rw [find?_reverse_of_last r.cfg_pkgs _ j hj (by simp only [htj, beq_self_eq_true]) ?_]
  · rfl
  · intro k hk hjk
    simp only [beq_eq_false_iff_ne]
    exact hlast k hk hjk

theorem drop_getD (l : List Nat) (n : Nat) (h : n < l.length) :
    l.drop n = l.getD n 0 :: l.drop (n + 1) := by
  rw [List.getD_eq_getElem _ _ h]
  exact List.drop_eq_getElem_cons h

/-- C8: an input shorter than the fixed header size fails with
`InvalidSize`; otherwise the decoded header reads `bin_len` as the
little-endian u32 at bytes 0..4, `checksum` at byte 4, `bin_version` from
bytes 5..9 and `pkg_num` at byte 9. -/
theorem c8_header_decode (input : List Nat) :
    (input.length < sizeOfGoodixCfgBinHead → parse input = .err .invalidSize) ∧
    (sizeOfGoodixCfgBinHead ≤ input.length →
      (mkHead input).bin_len =
        input.getD 0 0 % 256 + 256 * (input.getD 1 0 % 256) +
          65536 * (input.getD 2 0 % 256) + 16777216 * (input.getD 3 0 % 256) ∧
      (mkHead input).checksum = input.getD 4 0 % 256 ∧
      (mkHead input).bin_version =
        [input.getD 5 0 % 256, input.getD 6 0 % 256, input.getD 7 0 % 256,
          input.getD 8 0 % 256] ∧
      (mkHead input).pkg_num = input.getD 9 0 % 256) := by
  constructor
  · intro h
    unfold parse
    rw [if_pos h]
  · intro h
    unfold sizeOfGoodixCfgBinHead at h
    refine ⟨rfl, rfl, ?_, rfl⟩
    show bytesAt input 5 TS_BIN_VERSION_LEN = _
    unfold bytesAt TS_BIN_VERSION_LEN
    rw [drop_getD input 5 (by omega), drop_getD input (5 + 1) (by omega),
        drop_getD input (5 + 1 + 1) (by omega), drop_getD input (5 + 1 + 1 + 1) (by omega)]
    rfl

/-- Witness for C8: a short input and a 10-byte input with distinct header
bytes. -/
theorem c8_witness :
    parse [1, 2, 3] = .err .invalidSize ∧
    (mkHead c8ex).bin_len = c8ex.getD 0 0 % 256 + 256 * (c8ex.getD 1 0 % 256) +
      65536 * (c8ex.getD 2 0 % 256) + 16777216 * (c8ex.getD 3 0 % 256) ∧
    (mkHead c8ex).pkg_num = c8ex.getD 9 0 % 256 :=
  ⟨(c8_header_decode [1, 2, 3]).1 (by decide),
    ((c8_header_decode c8ex).2 (by decide)).1,
    ((c8_header_decode c8ex).2 (by decide)).2.2.2⟩

/-- C9: an input passing the header-size, length and checksum checks with
`pkg_num = 0` decodes to an empty package sequence and empty registry. -/
theorem c9_pkg_num_zero (input : List Nat)
    (hlen : sizeOfGoodixCfgBinHead ≤ input.length)
    (hbin : input.length % 2 ^ 32 = (mkHead input).bin_len)
    (hsum : checksumFrom input = (mkHead input).checksum)
    (hpkg : (mkHead input).pkg_num = 0) :
    parse input = .ok { head := mkHead input, cfg_pkgs := [], ic_configs := [] } :=
  parse_ok_of_pkgZero input hlen hbin hsum hpkg

/-- Witness for C9 at the concrete buffer `c9ex`. -/
theorem c9_witness :
    parse c9ex = .ok { head := mkHead c9ex, cfg_pkgs := [], ic_configs := [] } :=
  c9_pkg_num_zero c9ex (by decide) (by decide) (by decide) (by decide)

set_option maxRecDepth 2000 in
/-- Witness for C7 at the concrete buffer `c7ex`, whose two packages both
carry `cfg_type` 3: the registry maps 3 to the later package's config. -/
theorem c7_witness :
    parse c7ex = .ok c7res ∧
    lookupCfg c7res.ic_configs 3 = some (mkIcConfig (c7res.cfg_pkgs.getD 1 default).cfg) ∧
    c7res.cfg_pkgs.length = c7res.head.pkg_num := by
  have hok : parse c7ex = .ok c7res := outcome_eq_ok (parse c7ex) (by decide)
  have hlen2 : c7res.cfg_pkgs.length = 2 := by decide
  have h7 := c7_last_write_wins c7ex c7res hok 0 1 3 (by decide) (by omega)
    (by decide) (by decide) (by intro k hk h1k; omega)
  exact ⟨hok, h7.1, h7.2.1⟩

end Goodix
